import Mathlib

/-!
Shallow embedding of the repository's instrument-acquisition script
(src/scripts/DataAcquisition.py) and of the power computation of the
analysis script (src/scripts/DataAnalysis.py).

The acquisition script is a single `main` that opens a VISA session,
identifies and configures a Keithley sourcemeter, enables its output,
takes `NUM_READINGS` readings with a delay after each one, disables the
output, and in a `finally` block disables the output once more
(catching any failure of that write) before closing the session.  The
two `except` clauses catch `pyvisa.Error` and `Exception`, print a
message and fall through to the `finally` block; `main` itself returns
nothing.

We model the external channel by an `Env` oracle giving each
operation's outcome, and `run` returns the trace of channel operations
issued, the caller-visible outcome of `main`, the final value of the
local `readings` list, and whether the collected-data summary of
lines 139-142 was reached.  Numeric values are modelled as rationals;
Python `float` parsing is modelled for the usual finite decimal /
scientific-notation grammar (`inf`/`nan`/digit-underscore forms are
outside the model, no claim touches them).
-/

namespace DataAcq

/-- The SCPI write commands issued by the script; value-carrying commands
hold the interpolated numeric payload instead of a formatted string. -/
inductive Cmd
  | rst
  | sourFunc
  | sourMode
  | sourLev (v : ℚ)
  | sensFunc
  | sensProt (c : ℚ)
  | sensRang
  | formElem
  | outpOn
  | outpOff
  deriving DecidableEq

/-- The two queries issued by the script. -/
inductive Qry
  | idn
  | read
  deriving DecidableEq

/-- One operation on the communication channel, in the order it is issued.
An event records that the operation was attempted; whether it succeeded is
part of the environment. -/
inductive Event
  | listResources
  | openConn
  | write (c : Cmd)
  | query (q : Qry)
  | sleep
  | close
  deriving DecidableEq

/-- A Python exception as far as the script can observe it: a
`pyvisa.Error` raised by a channel operation, or the `ValueError` raised
by tuple unpacking / `float` conversion of a malformed response. -/
inductive PyErr
  | visa (op : Event)
  | valueError
  deriving DecidableEq

/-- The caller-visible outcome of `main`: it returned normally with no
exception, it returned normally after one of the two `except` clauses
caught and printed an exception, or an exception escaped `main`
(only possible from `instrument.close()` in the `finally` block, which
is not guarded by any handler). -/
inductive Outcome
  | normal
  | caught (e : PyErr)
  | raised (e : PyErr)
  deriving DecidableEq

/-- What one run of `main` amounts to. `readings` is the final value of
the local `readings` list (their individual values are printed as they are
taken); `surfaced` records whether the collected-data summary on the
success path (lines 139-142) ran — on every exception path it does not,
and `main` returns nothing. -/
structure RunOut where
  trace : List Event
  outcome : Outcome
  readings : List (ℚ × ℚ)
  surfaced : Bool
  deriving DecidableEq

/-- The module-level measurement settings of the script
(`SOURCE_VOLTAGE`, `CURRENT_COMPLIANCE`, `NUM_READINGS`,
`READING_INTERVAL`), gathered into one value. -/
structure MeasurementConfig where
  numReadings : Nat
  sourceVoltage : ℚ
  currentCompliance : ℚ
  interval : ℚ

/-- The environment oracle: the outcome of each channel operation of one
run.  Write/query flags tell whether that operation raises a
`pyvisa.Error`; `readResp i` is the response to the i-th `:READ?` query
(`none` = the query raises).  `cancelRequested i` models an external
cancellation request present before the i-th loop iteration; the script
contains no code consulting any such condition. -/
structure Env where
  openOk : Bool
  idnResp : Option String
  rstOk : Bool
  sourFuncOk : Bool
  sourModeOk : Bool
  sourLevOk : Bool
  sensFuncOk : Bool
  sensProtOk : Bool
  sensRangOk : Bool
  formElemOk : Bool
  outpOnOk : Bool
  readResp : Nat → Option String
  outpOffMainOk : Bool
  outpOffCleanupOk : Bool
  closeOk : Bool
  cancelRequested : Nat → Bool

/-! ### Python float / response parsing (lines 121-125) -/

/-- Python `str.strip()`: remove leading and trailing whitespace. -/
def trimChars (l : List Char) : List Char :=
  ((l.dropWhile Char.isWhitespace).reverse.dropWhile Char.isWhitespace).reverse

/-- Python `str.split(',')`: split at every comma; no collapsing, so the
result always has one more part than there are commas. -/
def splitComma : List Char → List (List Char)
  | [] => [[]]
  | c :: rest =>
    let r := splitComma rest
    if c = ',' then [] :: r
    else
      match r with
      | [] => [[c]]
      | h :: t => (c :: h) :: t

/-- Value of a digit string. -/
def digitsVal (l : List Char) : Nat :=
  l.foldl (fun a c => a * 10 + (c.toNat - 48)) 0

/-- A non-empty all-digit string, or failure. -/
def parseDigits? (l : List Char) : Option Nat :=
  if l ≠ [] ∧ l.all Char.isDigit then some (digitsVal l) else none

/-- Strip one optional leading sign; the flag is true for a minus sign. -/
def stripSign : List Char → Bool × List Char
  | '+' :: rest => (false, rest)
  | '-' :: rest => (true, rest)
  | l => (false, l)

/-- Split a numeral at the first exponent marker. -/
def splitAtExp : List Char → List Char × Option (List Char)
  | [] => ([], none)
  | c :: rest =>
    if c = 'e' ∨ c = 'E' then ([], some rest)
    else
      let r := splitAtExp rest
      (c :: r.1, r.2)

/-- Unsigned mantissa: `digits`, `digits.digits`, `digits.` or `.digits`. -/
def parseUMant? (l : List Char) : Option ℚ :=
  let ip := l.takeWhile Char.isDigit
  let rest := l.dropWhile Char.isDigit
  match rest with
  | [] => if ip = [] then none else some (digitsVal ip)
  | '.' :: fp =>
    if fp.all Char.isDigit ∧ (ip ≠ [] ∨ fp ≠ []) then
      some ((digitsVal ip : ℚ) + (digitsVal fp : ℚ) / ((10 : ℚ) ^ fp.length))
    else none
  | _ => none

/-- Python `float` on the finite numeric grammar, with exact rational
value: optional surrounding whitespace, optional sign, decimal mantissa,
optional scientific exponent.  `none` models a `ValueError`. -/
def pyFloatChars? (l : List Char) : Option ℚ :=
  let p := stripSign (trimChars l)
  let me := splitAtExp p.2
  match parseUMant? me.1, me.2 with
  | none, _ => none
  | some m, none => some (if p.1 then -m else m)
  | some m, some el =>
    let q := stripSign el
    match parseDigits? q.2 with
    | none => none
    | some e =>
      let mag := if q.1 then m / ((10 : ℚ) ^ e) else m * ((10 : ℚ) ^ e)
      some (if p.1 then -mag else mag)

/-- Python `float` on a string argument. -/
def pyFloat? (s : String) : Option ℚ :=
  pyFloatChars? s.toList

/-- Lines 121-125: `voltage_str, current_str = data_string.strip().split(',')`
followed by the two `float` conversions.  `none` models the `ValueError`
raised either by unpacking a list whose length is not 2 or by a failing
`float` conversion. -/
def parsePair? (s : String) : Option (ℚ × ℚ) :=
  match splitComma (trimChars s.toList) with
  | [a, b] =>
    match pyFloatChars? a, pyFloatChars? b with
    | some v, some c => some (v, c)
    | _, _ => none
  | _ => none

/-- The parsed form of the i-th read-trigger response (`none` when the
query raises or the response is malformed). -/
def Env.respParse (env : Env) (i : Nat) : Option (ℚ × ℚ) :=
  (env.readResp i).bind parsePair?

/-! ### The acquisition run (lines 48-168) -/

/-- The configuration commands of step 4 (lines 78-104), in program order. -/
def configCmds (cfg : MeasurementConfig) : List Cmd :=
  [Cmd.rst, Cmd.sourFunc, Cmd.sourMode, Cmd.sourLev cfg.sourceVoltage,
   Cmd.sensFunc, Cmd.sensProt cfg.currentCompliance, Cmd.sensRang, Cmd.formElem]

/-- The configuration commands of step 4 paired with their success flags. -/
def configList (cfg : MeasurementConfig) (env : Env) : List (Bool × Cmd) :=
  [(env.rstOk, Cmd.rst), (env.sourFuncOk, Cmd.sourFunc),
   (env.sourModeOk, Cmd.sourMode), (env.sourLevOk, Cmd.sourLev cfg.sourceVoltage),
   (env.sensFuncOk, Cmd.sensFunc), (env.sensProtOk, Cmd.sensProt cfg.currentCompliance),
   (env.sensRangOk, Cmd.sensRang), (env.formElemOk, Cmd.formElem)]

/-- Issue a sequence of fire-and-forget writes; the first failing write
raises, so later commands are not issued.  Returns the events issued and
the raised error, if any. -/
def runWrites : List (Bool × Cmd) → List Event × Option PyErr
  | [] => ([], none)
  | (ok, c) :: rest =>
    if ok then
      let r := runWrites rest
      (Event.write c :: r.1, r.2)
    else ([Event.write c], some (PyErr.visa (Event.write c)))

/-- The measurement loop (lines 114-132): for each remaining iteration,
issue `:READ?`; a raising query or a malformed response raises out of the
loop; otherwise append the parsed reading, sleep the interval, continue.
The sleep is executed on every iteration, the last one included.
Arguments: remaining iterations, absolute index of the next reading.
Returns the loop's events, the readings appended, and the raised error,
if any. -/
def loop (resp : Nat → Option String) : Nat → Nat → List Event × List (ℚ × ℚ) × Option PyErr
  | 0, _ => ([], [], none)
  | m + 1, i =>
    match resp i with
    | none => ([Event.query Qry.read], [], some (PyErr.visa (Event.query Qry.read)))
    | some s =>
      match parsePair? s with
      | none => ([Event.query Qry.read], [], some PyErr.valueError)
      | some r =>
        let rest := loop resp m (i + 1)
        (Event.query Qry.read :: Event.sleep :: rest.1, r :: rest.2.1, rest.2.2)

/-- The `finally` block when the connection was opened (lines 161-168):
issue `:OUTP OFF` (its own failure is caught by the inner handler and only
printed), then `instrument.close()`.  A failing close is unguarded and
escapes `main`, replacing the pending outcome. -/
def cleanup (closeOk : Bool) (t : List Event) (o : Outcome)
    (rs : List (ℚ × ℚ)) (s : Bool) : RunOut :=
  { trace := t ++ [Event.write Cmd.outpOff, Event.close],
    outcome := if closeOk then o else Outcome.raised (PyErr.visa Event.close),
    readings := rs,
    surfaced := s }

/-- The whole of `main` (lines 48-168) against an environment oracle:
resource listing, open, identification query, the configuration writes,
output enable, the measurement loop, the success-path output disable and
data summary, and the `finally` cleanup.  A failed open leaves
`instrument` as `None`, so the `finally` block does nothing. -/
def run (cfg : MeasurementConfig) (env : Env) : RunOut :=
  if env.openOk then
    let t1 := [Event.listResources, Event.openConn, Event.query Qry.idn]
    match env.idnResp with
    | none => cleanup env.closeOk t1 (Outcome.caught (PyErr.visa (Event.query Qry.idn))) [] false
    | some _ =>
      let w := runWrites (configList cfg env)
      let t2 := t1 ++ w.1
      match w.2 with
      | some e => cleanup env.closeOk t2 (Outcome.caught e) [] false
      | none =>
        let t3 := t2 ++ [Event.write Cmd.outpOn]
        if env.outpOnOk then
          let r := loop env.readResp cfg.numReadings 0
          let t4 := t3 ++ r.1
          match r.2.2 with
          | some e => cleanup env.closeOk t4 (Outcome.caught e) r.2.1 false
          | none =>
            let t5 := t4 ++ [Event.write Cmd.outpOff]
            if env.outpOffMainOk then
              cleanup env.closeOk t5 Outcome.normal r.2.1 true
            else
              cleanup env.closeOk t5 (Outcome.caught (PyErr.visa (Event.write Cmd.outpOff))) r.2.1 false
        else
          cleanup env.closeOk t3 (Outcome.caught (PyErr.visa (Event.write Cmd.outpOn))) [] false
  else
    { trace := [Event.listResources, Event.openConn],
      outcome := Outcome.caught (PyErr.visa Event.openConn),
      readings := [],
      surfaced := false }

/-- Every communication operation of a full run succeeds and every
response parses. -/
def allOk (cfg : MeasurementConfig) (env : Env) : Prop :=
  env.openOk = true ∧ env.idnResp.isSome = true ∧
  env.rstOk = true ∧ env.sourFuncOk = true ∧ env.sourModeOk = true ∧
  env.sourLevOk = true ∧ env.sensFuncOk = true ∧ env.sensProtOk = true ∧
  env.sensRangOk = true ∧ env.formElemOk = true ∧ env.outpOnOk = true ∧
  (∀ i, i < cfg.numReadings → (env.respParse i).isSome = true) ∧
  env.outpOffMainOk = true ∧ env.closeOk = true

instance (cfg : MeasurementConfig) (env : Env) : Decidable (allOk cfg env) := by
  unfold allOk
  infer_instance

/-- The channel trace of a run in which everything succeeds. -/
def fullOkTrace (cfg : MeasurementConfig) : List Event :=
  [Event.listResources, Event.openConn, Event.query Qry.idn] ++
    (configCmds cfg).map Event.write ++ [Event.write Cmd.outpOn] ++
    (List.replicate cfg.numReadings [Event.query Qry.read, Event.sleep]).flatten ++
    [Event.write Cmd.outpOff, Event.write Cmd.outpOff, Event.close]

/-- A concrete configuration with the reading count as a parameter,
using integer-valued settings so that concrete runs evaluate by `decide`. -/
def cfgN (n : Nat) : MeasurementConfig :=
  { numReadings := n, sourceVoltage := 1, currentCompliance := 2, interval := 1 }

/-- An environment in which every operation succeeds and every read
response is the well-formed pair "1,2". -/
def envOk : Env :=
  { openOk := true, idnResp := some "KEITHLEY", rstOk := true, sourFuncOk := true,
    sourModeOk := true, sourLevOk := true, sensFuncOk := true, sensProtOk := true,
    sensRangOk := true, formElemOk := true, outpOnOk := true,
    readResp := fun _ => some "1,2",
    outpOffMainOk := true, outpOffCleanupOk := true, closeOk := true,
    cancelRequested := fun _ => false }

/-- Environment in which opening the connection fails. -/
def envOpenFail : Env := { envOk with openOk := false }

/-- Environment in which everything succeeds except the final close. -/
def envCloseFail : Env := { envOk with closeOk := false }

/-- Environment in which the first three read responses parse and the
fourth response is the malformed "bad,data,extra". -/
def envBadAt3 : Env :=
  { envOk with readResp := fun i => if i < 3 then some "1,2" else some "bad,data,extra" }

/-- Environment with an external cancellation request pending from before
the third loop iteration on; the script never consults it. -/
def envCancel2 : Env := { envOk with cancelRequested := fun i => 2 ≤ i }

end DataAcq

namespace DataAnalysis

/-- Line 48 of DataAnalysis.py: the power column,
`np.abs(df[voltage] * df[current])`, the elementwise absolute product of
the voltage and current columns. -/
def power (volt curr : List ℚ) : List ℚ :=
  List.zipWith (fun v c => |v * c|) volt curr

/-- Line 52 of DataAnalysis.py: the peak power, the maximum of the power
column (`none` for an empty column, where pandas yields NaN). -/
def peakPower (volt curr : List ℚ) : Option ℚ :=
  (power volt curr).max?

end DataAnalysis

namespace DataAcq

/-! ### Basic lemmas about the embedded operations -/

theorem cleanup_trace (b : Bool) (t : List Event) (o : Outcome) (rs : List (ℚ × ℚ)) (s : Bool) :
    (cleanup b t o rs s).trace = t ++ [Event.write Cmd.outpOff, Event.close] := rfl

theorem cleanup_outcome (b : Bool) (t : List Event) (o : Outcome) (rs : List (ℚ × ℚ)) (s : Bool) :
    (cleanup b t o rs s).outcome =
      if b then o else Outcome.raised (PyErr.visa Event.close) := rfl

theorem cleanup_readings (b : Bool) (t : List Event) (o : Outcome) (rs : List (ℚ × ℚ)) (s : Bool) :
    (cleanup b t o rs s).readings = rs := rfl

theorem cleanup_surfaced (b : Bool) (t : List Event) (o : Outcome) (rs : List (ℚ × ℚ)) (s : Bool) :
    (cleanup b t o rs s).surfaced = s := rfl

theorem runWrites_events (l : List (Bool × Cmd)) :
    ∀ e ∈ (runWrites l).1, ∃ c, e = Event.write c ∧ c ∈ l.map Prod.snd := by
  induction l with
  | nil => simp [runWrites]
  | cons p rest ih =>
    obtain ⟨ok, c⟩ := p
    by_cases hok : ok = true <;> intro e he <;>
      simp only [runWrites, hok, if_true, if_false, Bool.false_eq_true,
        List.mem_cons, List.mem_singleton] at he
    · rcases he with rfl | he
      · exact ⟨c, rfl, by simp⟩
      · obtain ⟨d, rfl, hd⟩ := ih e he
        exact ⟨d, rfl, by simp [hd]⟩
    · rcases he with rfl | he
      · exact ⟨c, rfl, by simp⟩
      · cases he

theorem runWrites_ok (l : List (Bool × Cmd)) (h : ∀ p ∈ l, p.1 = true) :
    runWrites l = (l.map fun p => Event.write p.2, none) := by
  induction l with
  | nil => simp [runWrites]
  | cons p rest ih =>
    have hp : p.1 = true := h p (by simp)
    obtain ⟨ok, c⟩ := p
    simp only at hp
    simp [runWrites, hp, ih fun q hq => h q (by simp [hq])]

theorem runWrites_none_flags (l : List (Bool × Cmd)) (h : (runWrites l).2 = none) :
    ∀ p ∈ l, p.1 = true := by
  induction l with
  | nil => intro p hp; cases hp
  | cons p rest ih =>
    obtain ⟨ok, c⟩ := p
    by_cases hok : ok = true
    · simp only [runWrites, hok, if_true] at h
      intro q hq
      rcases List.mem_cons.mp hq with rfl | hq
      · exact hok
      · exact ih h q hq
    · simp only [runWrites, hok, if_false, Bool.false_eq_true] at h
      cases h

theorem runWrites_none_trace (l : List (Bool × Cmd)) (h : (runWrites l).2 = none) :
    (runWrites l).1 = l.map fun p => Event.write p.2 := by
  rw [runWrites_ok l (runWrites_none_flags l h)]

theorem loop_events (resp : Nat → Option String) :
    ∀ n i, ∀ e ∈ (loop resp n i).1, e = Event.query Qry.read ∨ e = Event.sleep := by
  intro n
  induction n with
  | zero => simp [loop]
  | succ m ih =>
    intro i e he
    cases hr : resp i with
    | none =>
      simp only [loop, hr, List.mem_singleton] at he
      simp [he]
    | some s =>
      cases hp : parsePair? s with
      | none =>
        simp only [loop, hr, hp, List.mem_singleton] at he
        simp [he]
      | some r =>
        simp only [loop, hr, hp, List.mem_cons] at he
        rcases he with rfl | rfl | he
        · exact Or.inl rfl
        · exact Or.inr rfl
        · exact ih (i + 1) e he

theorem loop_ok (resp : Nat → Option String) (p : Nat → ℚ × ℚ) :
    ∀ n i, (∀ j, j < n → (resp (i + j)).bind parsePair? = some (p (i + j))) →
      loop resp n i =
        ((List.replicate n [Event.query Qry.read, Event.sleep]).flatten,
         (List.range n).map (fun j => p (i + j)), none) := by
  intro n
  induction n with
  | zero => intro i _; simp [loop]
  | succ m ih =>
    intro i h
    have h0 : (resp i).bind parsePair? = some (p i) := by
      have := h 0 (Nat.succ_pos m)
      simpa using this
    cases hr : resp i with
    | none => simp [hr] at h0
    | some s =>
      rw [hr, Option.some_bind] at h0
      have hrest : ∀ j, j < m → (resp (i + 1 + j)).bind parsePair? = some (p (i + 1 + j)) := by
        intro j hj
        have := h (j + 1) (Nat.succ_lt_succ hj)
        have harith : i + (j + 1) = i + 1 + j := by omega
        rwa [harith] at this
      simp only [loop, hr, h0, ih (i + 1) hrest, Prod.mk.injEq]
      refine ⟨by simp [List.replicate_succ], ?_, trivial⟩
      rw [List.range_succ_eq_map]
      simp only [List.map_cons, List.map_map, Nat.add_zero, List.cons.injEq, true_and]
      apply List.map_congr_left
      intro j _
      simp only [Function.comp]
      congr 1
      omega

theorem loop_fail (resp : Nat → Option String) (p : Nat → ℚ × ℚ) (k : Nat) :
    ∀ n i, k < n →
      (∀ j, j < k → (resp (i + j)).bind parsePair? = some (p (i + j))) →
      (resp (i + k)).isSome = true →
      (resp (i + k)).bind parsePair? = none →
      loop resp n i =
        ((List.replicate k [Event.query Qry.read, Event.sleep]).flatten ++ [Event.query Qry.read],
         (List.range k).map (fun j => p (i + j)), some PyErr.valueError) := by
  induction k with
  | zero =>
    intro n i hn _ hq hbad
    obtain ⟨m, rfl⟩ := Nat.exists_eq_succ_of_ne_zero (by omega : n ≠ 0)
    simp only [Nat.add_zero] at hq hbad
    obtain ⟨s, hs⟩ := Option.isSome_iff_exists.mp hq
    rw [hs, Option.some_bind] at hbad
    simp [loop, hs, hbad]
  | succ j ih =>
    intro n i hn h hq hbad
    obtain ⟨m, rfl⟩ := Nat.exists_eq_succ_of_ne_zero (by omega : n ≠ 0)
    have h0 : (resp i).bind parsePair? = some (p i) := by
      have := h 0 (Nat.succ_pos j)
      simpa using this
    cases hr : resp i with
    | none => simp [hr] at h0
    | some s =>
      rw [hr, Option.some_bind] at h0
      have hrest : ∀ l, l < j → (resp (i + 1 + l)).bind parsePair? = some (p (i + 1 + l)) := by
        intro l hl
        have := h (l + 1) (Nat.succ_lt_succ hl)
        have harith : i + (l + 1) = i + 1 + l := by omega
        rwa [harith] at this
      have harith2 : i + 1 + j = i + (j + 1) := by omega
      have := ih m (i + 1) (Nat.lt_of_succ_lt_succ hn)
        hrest (by rwa [harith2]) (by rwa [harith2])
      simp only [loop, hr, h0, this, Prod.mk.injEq]
      refine ⟨by simp [List.replicate_succ], ?_, trivial⟩
      rw [List.range_succ_eq_map]
      simp only [List.map_cons, List.map_map, Nat.add_zero, List.cons.injEq, true_and]
      apply List.map_congr_left
      intro l _
      simp only [Function.comp]
      congr 1
      omega

@[simp] theorem close_mem_runWrites_iff (l : List (Bool × Cmd)) :
    Event.close ∈ (runWrites l).1 ↔ False := by
  simp only [iff_false]
  intro h
  obtain ⟨c, hc, _⟩ := runWrites_events l Event.close h
  cases hc

@[simp] theorem close_mem_loop_iff (resp : Nat → Option String) (n i : Nat) :
    Event.close ∈ (loop resp n i).1 ↔ False := by
  simp only [iff_false]
  intro h
  rcases loop_events resp n i Event.close h with h1 | h1 <;> cases h1

/-- After a successful open, every exit path of the run ends by issuing the
disable-output write followed by the close, and no close occurs earlier. -/
theorem run_shape (cfg : MeasurementConfig) (env : Env) (h : env.openOk = true) :
    ∃ pre, (run cfg env).trace = pre ++ [Event.write Cmd.outpOff, Event.close] ∧
      Event.close ∉ pre := by
  simp only [run]
  rw [if_pos h]
  split
  · exact ⟨_, rfl, by simp⟩
  · split
    · exact ⟨_, rfl, by simp⟩
    · split
      · split
        · exact ⟨_, rfl, by simp⟩
        · split
          · exact ⟨_, rfl, by simp⟩
          · exact ⟨_, rfl, by simp⟩
      · exact ⟨_, rfl, by simp⟩

theorem opt_eq_some_iget {α : Type} [Inhabited α] {o : Option α} (h : o.isSome = true) :
    o = some o.iget := by
  cases o with
  | none => cases h
  | some a => rfl

theorem configList_flags (cfg : MeasurementConfig) (env : Env)
    (h3 : env.rstOk = true) (h4 : env.sourFuncOk = true) (h5 : env.sourModeOk = true)
    (h6 : env.sourLevOk = true) (h7 : env.sensFuncOk = true) (h8 : env.sensProtOk = true)
    (h9 : env.sensRangOk = true) (h10 : env.formElemOk = true) :
    ∀ p ∈ configList cfg env, p.1 = true := by
  intro p hp
  simp only [configList, List.mem_cons, List.not_mem_nil, or_false] at hp
  rcases hp with rfl | rfl | rfl | rfl | rfl | rfl | rfl | rfl <;> assumption

theorem outpOn_not_mem_runWrites (cfg : MeasurementConfig) (env : Env) :
    Event.write Cmd.outpOn ∉ (runWrites (configList cfg env)).1 := by
  intro h
  obtain ⟨c, hc, hmem⟩ := runWrites_events _ _ h
  obtain rfl : Cmd.outpOn = c := by injection hc
  simp [configList] at hmem

theorem count_flatten_replicate (e : Event) (l : List Event) (k : Nat) :
    ((List.replicate k l).flatten).count e = k * l.count e := by
  induction k with
  | zero => simp
  | succ m ih =>
    simp [List.replicate_succ, List.count_append, ih, Nat.succ_mul, Nat.add_comm]

/-- A run in which every operation succeeds: full trace, normal outcome,
all readings surfaced. -/
theorem run_allOk (cfg : MeasurementConfig) (env : Env) (h : allOk cfg env) :
    run cfg env =
      { trace := fullOkTrace cfg,
        outcome := Outcome.normal,
        readings := (List.range cfg.numReadings).map (fun i => (env.respParse i).iget),
        surfaced := true } := by
  obtain ⟨h1, h2, h3, h4, h5, h6, h7, h8, h9, h10, h11, h12, h13, h14⟩ := h
  obtain ⟨s, hs⟩ := Option.isSome_iff_exists.mp h2
  have hw := runWrites_ok (configList cfg env)
    (configList_flags cfg env h3 h4 h5 h6 h7 h8 h9 h10)
  have hloop := loop_ok env.readResp (fun i => (env.respParse i).iget) cfg.numReadings 0
    (fun j hj => opt_eq_some_iget (h12 (0 + j) (by omega)))
  simp only [run]
  rw [if_pos h1]
  simp only [hs, hw, hloop, if_pos h11, if_pos h13]
  simp only [cleanup, if_pos h14, RunOut.mk.injEq, and_true, true_and]
  constructor
  · simp [fullOkTrace, configCmds, configList, List.append_assoc]
  · simp

theorem configList_map (cfg : MeasurementConfig) (env : Env) :
    (configList cfg env).map (fun p => Event.write p.2) = (configCmds cfg).map Event.write := rfl

theorem count_nonwrite_map (l : List Cmd) (e : Event) (h : ∀ c, e ≠ Event.write c) :
    (l.map Event.write).count e = 0 := by
  rw [List.count_eq_zero]
  intro hmem
  obtain ⟨c, -, he⟩ := List.mem_map.mp hmem
  exact h c he.symm

theorem count_write_map_not_mem (l : List Cmd) (c : Cmd) (h : c ∉ l) :
    (l.map Event.write).count (Event.write c) = 0 := by
  rw [List.count_eq_zero]
  intro hmem
  obtain ⟨d, hd, he⟩ := List.mem_map.mp hmem
  obtain rfl : d = c := by injection he
  exact h hd

theorem run_not_raised (cfg : MeasurementConfig) (env : Env) (hc : env.closeOk = true) :
    ∀ e, (run cfg env).outcome ≠ Outcome.raised e := by
  intro e
  by_cases ho : env.openOk = true
  · simp only [run, cleanup]
    rw [if_pos ho]
    repeat' split
    all_goals simp_all
  · have ho2 : env.openOk = false := by
      revert ho; cases env.openOk <;> simp
    simp [run, ho2]

theorem run_closeFail_raises (cfg : MeasurementConfig) (env : Env)
    (ho : env.openOk = true) (hc : env.closeOk = false) :
    (run cfg env).outcome = Outcome.raised (PyErr.visa Event.close) := by
  simp only [run, cleanup]
  rw [if_pos ho]
  repeat' split
  all_goals simp_all

example : pyFloat? "+1.00000E+00" = some 1 := by with_unfolding_all rfl
example : pyFloat? " -1.5e-2" = some (-(3 / 200)) := by with_unfolding_all rfl
example : parsePair? "+1.0,+0.001" = some (1, 1 / 1000) := by with_unfolding_all rfl
example : pyFloat? "bad" = none := by decide
example : parsePair? "bad,data,extra" = none := by decide
example : parsePair? "1,2" = some (1, 2) := by decide
example : (run (cfgN 2) envOk).readings = [(1, 2), (1, 2)] := by decide
example : (run (cfgN 2) envOk).outcome = Outcome.normal := by decide
example : (run (cfgN 2) envOk).trace = fullOkTrace (cfgN 2) := by decide
example : allOk (cfgN 2) envOk := by decide

/-! ### Claim theorems -/

/-- C1: in every run in which the connection was successfully opened, on
every exit path a disable-output command is issued on the connection just
before the connection is closed, and the close command is issued exactly
once — never zero times, never twice. -/
theorem c1_disable_before_single_close (cfg : MeasurementConfig) (env : Env)
    (h : env.openOk = true) :
    (run cfg env).trace.count Event.close = 1 ∧
    ∃ pre, (run cfg env).trace = pre ++ [Event.write Cmd.outpOff, Event.close] := by
  obtain ⟨pre, hpre, hclose⟩ := run_shape cfg env h
  refine ⟨?_, pre, hpre⟩
  rw [hpre, List.count_append, List.count_eq_zero.mpr hclose]
  decide

/-- Witness for C1 at a concrete configuration and all-success environment. -/
theorem c1_disable_before_single_close_witness :
    (run (cfgN 2) envOk).trace.count Event.close = 1 ∧
    ∃ pre, (run (cfgN 2) envOk).trace = pre ++ [Event.write Cmd.outpOff, Event.close] :=
  c1_disable_before_single_close (cfgN 2) envOk rfl

/-- C5 counterexample: in a run where every operation succeeds except the
final close, the close failure escapes `main` as a raised error — the
cleanup stage does raise to the caller, contradicting the claim. -/
theorem c5_cleanup_counterexample :
    (run (cfgN 2) envCloseFail).outcome = Outcome.raised (PyErr.visa Event.close) := by
  decide

/-- C5 amended: cleanup always issues the disable write and then the close;
the run does not depend on whether that disable write fails (its failure is
caught by the inner handler and only logged, so it cannot prevent the
close), and with a succeeding close no error escapes `main`; but a failure
of the close command itself escapes to the caller, replacing the primary
outcome. -/
theorem c5_cleanup_amended (cfg : MeasurementConfig) (env : Env)
    (h : env.openOk = true) :
    (∃ pre, (run cfg env).trace = pre ++ [Event.write Cmd.outpOff, Event.close]) ∧
    (run cfg { env with outpOffCleanupOk := false } = run cfg env) ∧
    (env.closeOk = true → ∀ e, (run cfg env).outcome ≠ Outcome.raised e) ∧
    (env.closeOk = false → (run cfg env).outcome = Outcome.raised (PyErr.visa Event.close)) := by
  obtain ⟨pre, hpre, -⟩ := run_shape cfg env h
  refine ⟨⟨pre, hpre⟩, ?_, ?_, ?_⟩
  · cases env; rfl
  · exact fun hc e => run_not_raised cfg env hc e
  · exact fun hc => run_closeFail_raises cfg env h hc

/-- Witness for the amended C5 at a concrete environment. -/
theorem c5_cleanup_amended_witness :
    (∃ pre, (run (cfgN 2) envOk).trace = pre ++ [Event.write Cmd.outpOff, Event.close]) ∧
    (run (cfgN 2) { envOk with outpOffCleanupOk := false } = run (cfgN 2) envOk) ∧
    (envOk.closeOk = true → ∀ e, (run (cfgN 2) envOk).outcome ≠ Outcome.raised e) ∧
    (envOk.closeOk = false →
      (run (cfgN 2) envOk).outcome = Outcome.raised (PyErr.visa Event.close)) :=
  c5_cleanup_amended (cfgN 2) envOk rfl

/-- C6: when opening the connection fails, the outcome is the caught
connect error, the reading list is empty, nothing is surfaced, and no
write command and no close is ever issued — the trace holds only the
resource listing and the failed open attempt. -/
theorem c6_connect_failure (cfg : MeasurementConfig) (env : Env)
    (h : env.openOk = false) :
    (run cfg env).outcome = Outcome.caught (PyErr.visa Event.openConn) ∧
    (run cfg env).readings = [] ∧
    (run cfg env).surfaced = false ∧
    (run cfg env).trace = [Event.listResources, Event.openConn] ∧
    (∀ c, Event.write c ∉ (run cfg env).trace) ∧
    Event.close ∉ (run cfg env).trace := by
  have hrun : run cfg env =
      { trace := [Event.listResources, Event.openConn],
        outcome := Outcome.caught (PyErr.visa Event.openConn),
        readings := [], surfaced := false } := by
    simp only [run]
    rw [if_neg (by simp [h])]
  rw [hrun]
  refine ⟨rfl, rfl, rfl, rfl, ?_, by simp⟩
  intro c
  simp

/-- Witness for C6 at a concrete failing-open environment. -/
theorem c6_connect_failure_witness :
    (run (cfgN 2) envOpenFail).outcome = Outcome.caught (PyErr.visa Event.openConn) ∧
    (run (cfgN 2) envOpenFail).readings = [] ∧
    (run (cfgN 2) envOpenFail).surfaced = false ∧
    (run (cfgN 2) envOpenFail).trace = [Event.listResources, Event.openConn] ∧
    (∀ c, Event.write c ∉ (run (cfgN 2) envOpenFail).trace) ∧
    Event.close ∉ (run (cfgN 2) envOpenFail).trace :=
  c6_connect_failure (cfgN 2) envOpenFail rfl

/-- C7 counterexample: with a cancellation request pending from before the
third loop iteration, a 10-reading run still issues all 10 read-triggers
and ends normally with 10 readings — not a cancelled outcome carrying
exactly the 2 readings collected before the request. -/
theorem c7_cancellation_counterexample :
    (run (cfgN 10) envCancel2).readings.length = 10 ∧
    (run (cfgN 10) envCancel2).outcome = Outcome.normal ∧
    (run (cfgN 10) envCancel2).trace.count (Event.query Qry.read) = 10 ∧
    ¬((run (cfgN 10) envCancel2).readings.length = 2) := by
  decide

/-- C7 amended: the script checks no cancellation condition at all — the
whole run (trace, outcome, readings) is unchanged under any cancellation
request, so no cancelled outcome is ever produced. -/
theorem c7_no_cancellation_check (cfg : MeasurementConfig) (env : Env) (f : Nat → Bool) :
    run cfg { env with cancelRequested := f } = run cfg env := by
  cases env
  rfl

/-- C8 counterexample: a fully successful 3-reading run performs 3
interval delays, not the claimed 3 - 1 = 2 — the script suspends after
the final reading as well. -/
theorem c8_sleep_counterexample :
    (run (cfgN 3) envOk).trace.count Event.sleep = 3 ∧
    ¬((run (cfgN 3) envOk).trace.count Event.sleep = 3 - 1) := by
  decide

/-- C8 amended: the controller suspends for the configured interval after
appending every reading, the final one included — a fully successful run
of n readings performs exactly n interval delays. -/
theorem c8_sleep_after_every_reading (cfg : MeasurementConfig) (env : Env)
    (h : allOk cfg env) :
    (run cfg env).trace.count Event.sleep = cfg.numReadings := by
  rw [run_allOk cfg env h]
  simp [fullOkTrace, List.count_append, count_flatten_replicate,
    count_nonwrite_map (configCmds cfg) Event.sleep (fun c => by simp)]

/-- Witness for the amended C8 at a concrete 2-reading run. -/
theorem c8_sleep_after_every_reading_witness :
    (run (cfgN 2) envOk).trace.count Event.sleep = (cfgN 2).numReadings :=
  c8_sleep_after_every_reading (cfgN 2) envOk (by decide)

/-- C10: on a fully successful run the trace is exactly the full success
trace, in which the disable-output command appears exactly twice (once
after the measurement loop and once more defensively during cleanup) and
the close exactly once, at the very end. -/
theorem c10_double_disable (cfg : MeasurementConfig) (env : Env) (h : allOk cfg env) :
    (run cfg env).trace = fullOkTrace cfg ∧
    (run cfg env).trace.count (Event.write Cmd.outpOff) = 2 ∧
    (run cfg env).trace.count Event.close = 1 := by
  rw [run_allOk cfg env h]
  refine ⟨rfl, ?_, ?_⟩
  · simp [fullOkTrace, List.count_append, count_flatten_replicate,
      count_write_map_not_mem (configCmds cfg) Cmd.outpOff (by simp [configCmds])]
  · simp [fullOkTrace, List.count_append, count_flatten_replicate,
      count_nonwrite_map (configCmds cfg) Event.close (fun c => by simp)]

/-- Witness for C10 at a concrete 2-reading run. -/
theorem c10_double_disable_witness :
    (run (cfgN 2) envOk).trace = fullOkTrace (cfgN 2) ∧
    (run (cfgN 2) envOk).trace.count (Event.write Cmd.outpOff) = 2 ∧
    (run (cfgN 2) envOk).trace.count Event.close = 1 :=
  c10_double_disable (cfgN 2) envOk (by decide)

/-- C4: for every configuration, a run in which every communication
operation succeeds ends normally, surfaces the collected data, and the
reading list holds exactly numReadings entries in acquisition order — the
i-th entry being the parse of the i-th read-trigger response. -/
theorem c4_success_full_series (cfg : MeasurementConfig) (env : Env)
    (h : allOk cfg env) :
    (run cfg env).outcome = Outcome.normal ∧
    (run cfg env).surfaced = true ∧
    (run cfg env).readings.length = cfg.numReadings ∧
    (∀ i, i < cfg.numReadings → (run cfg env).readings[i]? = env.respParse i) := by
  have h12 : ∀ i, i < cfg.numReadings → (env.respParse i).isSome = true :=
    h.2.2.2.2.2.2.2.2.2.2.2.1
  rw [run_allOk cfg env h]
  refine ⟨rfl, rfl, by simp, ?_⟩
  intro i hi
  have hsome : env.respParse i = some (env.respParse i).iget := opt_eq_some_iget (h12 i hi)
  simp only [List.getElem?_map, List.getElem?_range hi, Option.map_some']
  exact hsome.symm

/-- Witness for C4 at a concrete 2-reading run. -/
theorem c4_success_full_series_witness :
    (run (cfgN 2) envOk).outcome = Outcome.normal ∧
    (run (cfgN 2) envOk).surfaced = true ∧
    (run (cfgN 2) envOk).readings.length = (cfgN 2).numReadings ∧
    (∀ i, i < (cfgN 2).numReadings → (run (cfgN 2) envOk).readings[i]? = envOk.respParse i) :=
  c4_success_full_series (cfgN 2) envOk (by decide)

/-- C2: the enable-output command is issued only when the identification
query and all eight stage-3 configuration commands were issued and
completed first, in program order before the enable; whenever any
configuration command fails, no enable-output command appears in the
trace. -/
theorem c2_enable_only_after_full_config (cfg : MeasurementConfig) (env : Env)
    (h : Event.write Cmd.outpOn ∈ (run cfg env).trace) :
    (env.rstOk = true ∧ env.sourFuncOk = true ∧ env.sourModeOk = true ∧
     env.sourLevOk = true ∧ env.sensFuncOk = true ∧ env.sensProtOk = true ∧
     env.sensRangOk = true ∧ env.formElemOk = true) ∧
    ∃ rest, (run cfg env).trace =
      [Event.listResources, Event.openConn, Event.query Qry.idn] ++
        (configCmds cfg).map Event.write ++ (Event.write Cmd.outpOn :: rest) := by
  by_cases ho : env.openOk = true
  case neg =>
    have ho2 : env.openOk = false := by revert ho; cases env.openOk <;> simp
    have hrun : run cfg env =
        { trace := [Event.listResources, Event.openConn],
          outcome := Outcome.caught (PyErr.visa Event.openConn),
          readings := [], surfaced := false } := by
      simp only [run]
      rw [if_neg (by simp [ho2])]
    rw [hrun] at h
    simp at h
  case pos =>
  simp only [run] at h ⊢
  rw [if_pos ho] at h ⊢
  revert h
  cases hidn : env.idnResp <;> intro h
  · simp [cleanup] at h
  · revert h
    cases hw2 : (runWrites (configList cfg env)).2 <;> intro h
    · have hflags := runWrites_none_flags _ hw2
      have hw1 : (runWrites (configList cfg env)).1 = (configCmds cfg).map Event.write := by
        rw [runWrites_none_trace _ hw2, configList_map]
      refine ⟨⟨hflags (env.rstOk, Cmd.rst) (by simp [configList]),
               hflags (env.sourFuncOk, Cmd.sourFunc) (by simp [configList]),
               hflags (env.sourModeOk, Cmd.sourMode) (by simp [configList]),
               hflags (env.sourLevOk, Cmd.sourLev cfg.sourceVoltage) (by simp [configList]),
               hflags (env.sensFuncOk, Cmd.sensFunc) (by simp [configList]),
               hflags (env.sensProtOk, Cmd.sensProt cfg.currentCompliance) (by simp [configList]),
               hflags (env.sensRangOk, Cmd.sensRang) (by simp [configList]),
               hflags (env.formElemOk, Cmd.formElem) (by simp [configList])⟩, ?_⟩
      clear h
      rw [hw1]
      by_cases hon : env.outpOnOk = true
      · rw [if_pos hon]
        cases hl : (loop env.readResp cfg.numReadings 0).2.2
        · by_cases hm : env.outpOffMainOk = true
          · rw [if_pos hm]
            exact ⟨(loop env.readResp cfg.numReadings 0).1 ++
                [Event.write Cmd.outpOff, Event.write Cmd.outpOff, Event.close],
              by simp [cleanup, List.append_assoc]⟩
          · rw [if_neg hm]
            exact ⟨(loop env.readResp cfg.numReadings 0).1 ++
                [Event.write Cmd.outpOff, Event.write Cmd.outpOff, Event.close],
              by simp [cleanup, List.append_assoc]⟩
        · exact ⟨(loop env.readResp cfg.numReadings 0).1 ++
              [Event.write Cmd.outpOff, Event.close],
            by simp [cleanup, List.append_assoc]⟩
      · rw [if_neg hon]
        exact ⟨[Event.write Cmd.outpOff, Event.close],
          by simp [cleanup, List.append_assoc]⟩
    · simp [cleanup] at h
      exact absurd h (outpOn_not_mem_runWrites cfg env)

/-- Witness for C2 at a concrete 1-reading all-success run. -/
theorem c2_enable_only_after_full_config_witness :
    ((envOk.rstOk = true ∧ envOk.sourFuncOk = true ∧ envOk.sourModeOk = true ∧
      envOk.sourLevOk = true ∧ envOk.sensFuncOk = true ∧ envOk.sensProtOk = true ∧
      envOk.sensRangOk = true ∧ envOk.formElemOk = true) ∧
     ∃ rest, (run (cfgN 1) envOk).trace =
       [Event.listResources, Event.openConn, Event.query Qry.idn] ++
         (configCmds (cfgN 1)).map Event.write ++ (Event.write Cmd.outpOn :: rest)) :=
  c2_enable_only_after_full_config (cfgN 1) envOk (by decide)

/-- C3 counterexample: with the fourth read response malformed after three
well-formed ones, the run's caught outcome carries no reading list and the
collected-data summary never runs — the three prior readings survive only
in the local list and are not returned to the caller alongside the error. -/
theorem c3_parse_failure_counterexample :
    (run (cfgN 10) envBadAt3).outcome = Outcome.caught PyErr.valueError ∧
    (run (cfgN 10) envBadAt3).surfaced = false ∧
    (run (cfgN 10) envBadAt3).readings = [(1, 2), (1, 2), (1, 2)] ∧
    (run (cfgN 10) envBadAt3).trace.count (Event.query Qry.read) = 4 := by
  decide

/-- C3 amended: a malformed k-th response (wrong field count or a failing
float conversion) after k-1 parsed readings raises a `ValueError` that
aborts the loop — exactly k+1 read-triggers counting the failing one, the
local list holding exactly the k-1 prior readings in order — and the run
proceeds to cleanup; but the readings are not returned to the caller
alongside the error: the handler prints only the message, the summary
never runs, and the caught outcome carries no data. -/
theorem c3_parse_failure_amended (cfg : MeasurementConfig) (env : Env)
    (p : Nat → ℚ × ℚ) (k : Nat)
    (ho : env.openOk = true) (hi : env.idnResp.isSome = true)
    (h3 : env.rstOk = true) (h4 : env.sourFuncOk = true) (h5 : env.sourModeOk = true)
    (h6 : env.sourLevOk = true) (h7 : env.sensFuncOk = true) (h8 : env.sensProtOk = true)
    (h9 : env.sensRangOk = true) (h10 : env.formElemOk = true) (hon : env.outpOnOk = true)
    (hcl : env.closeOk = true) (hk : k < cfg.numReadings)
    (hgood : ∀ j, j < k → env.respParse j = some (p j))
    (hq : (env.readResp k).isSome = true)
    (hbad : env.respParse k = none) :
    (run cfg env).outcome = Outcome.caught PyErr.valueError ∧
    (run cfg env).surfaced = false ∧
    (run cfg env).readings = (List.range k).map p ∧
    (run cfg env).trace.count (Event.query Qry.read) = k + 1 ∧
    ∃ pre, (run cfg env).trace = pre ++ [Event.write Cmd.outpOff, Event.close] := by
  obtain ⟨s, hs⟩ := Option.isSome_iff_exists.mp hi
  have hw := runWrites_ok (configList cfg env)
    (configList_flags cfg env h3 h4 h5 h6 h7 h8 h9 h10)
  have hloop := loop_fail env.readResp p k cfg.numReadings 0 hk
    (fun j hj => by rw [Nat.zero_add]; exact hgood j hj)
    (by rw [Nat.zero_add]; exact hq) (by rw [Nat.zero_add]; exact hbad)
  have hrun : run cfg env = cleanup env.closeOk
      ([Event.listResources, Event.openConn, Event.query Qry.idn] ++
          (configCmds cfg).map Event.write ++ [Event.write Cmd.outpOn] ++
          ((List.replicate k [Event.query Qry.read, Event.sleep]).flatten ++
            [Event.query Qry.read]))
      (Outcome.caught PyErr.valueError) ((List.range k).map (fun j => p (0 + j))) false := by
    simp only [run]
    rw [if_pos ho]
    simp only [hs, hw, hloop, configList_map, if_pos hon]
  rw [hrun]
  refine ⟨?_, rfl, ?_, ?_, ⟨_, rfl⟩⟩
  · rw [cleanup_outcome, if_pos hcl]
  · simp [cleanup]
  · rw [cleanup_trace]
    simp [List.count_append, count_flatten_replicate,
      count_nonwrite_map (configCmds cfg) (Event.query Qry.read) (fun c => by simp)]

/-- Witness for the amended C3: failure at the fourth response of a
10-reading run after three good readings. -/
theorem c3_parse_failure_amended_witness :
    (run (cfgN 10) envBadAt3).outcome = Outcome.caught PyErr.valueError ∧
    (run (cfgN 10) envBadAt3).surfaced = false ∧
    (run (cfgN 10) envBadAt3).readings = (List.range 3).map (fun _ => ((1 : ℚ), (2 : ℚ))) ∧
    (run (cfgN 10) envBadAt3).trace.count (Event.query Qry.read) = 3 + 1 ∧
    (∃ pre, (run (cfgN 10) envBadAt3).trace = pre ++ [Event.write Cmd.outpOff, Event.close]) :=
  c3_parse_failure_amended (cfgN 10) envBadAt3 (fun _ => ((1 : ℚ), (2 : ℚ))) 3
    rfl rfl rfl rfl rfl rfl rfl rfl rfl rfl rfl rfl (by decide) (by decide) (by decide) (by decide)

end DataAcq

namespace DataAnalysis

/-- C9: the analysis computes each power entry as the absolute product of
the voltage and current entries at the same index and reports the maximum
of the power column as the peak power; on the spec's example columns
[1, -1, 2] V and [0.001, -0.001, 0.0005] A every power value is 0.001 W
and the peak power is 0.001 W. -/
theorem c9_power_abs_peak :
    (∀ (volt curr : List ℚ) (i : Nat),
        (power volt curr)[i]? =
          match volt[i]?, curr[i]? with
          | some v, some c => some |v * c|
          | _, _ => none) ∧
    power [1, -1, 2] [1 / 1000, -(1 / 1000), 1 / 2000] = [1 / 1000, 1 / 1000, 1 / 1000] ∧
    peakPower [1, -1, 2] [1 / 1000, -(1 / 1000), 1 / 2000] = some (1 / 1000) := by
  refine ⟨?_, ?_, ?_⟩
  · intro volt
    induction volt with
    | nil => intro curr i; simp [power]
    | cons v vt ih =>
      intro curr i
      cases curr with
      | nil => simp [power]
      | cons c ct =>
        cases i with
        | zero => simp [power]
        | succ n => simpa [power] using ih ct n
  · with_unfolding_all rfl
  · with_unfolding_all rfl

end DataAnalysis
